import Mathlib

/-!
Verification of the YUV sequence reader (src/convert.py).

The reader shells out to external converters per frame, loads the produced
channel images, and stores them in a dictionary keyed by frame index.  The
embedding below models:

* Python string splitting and the extension computation;
* Python `range` and insertion-ordered dictionary assignment;
* a small file-system world (directories and files) for the side effects:
  `os.makedirs`, `shutil.rmtree`, and files created by the external
  processes;
* an event trace recording subprocess spawns/completions, image loads,
  frame stores and directory removals, in program order.

Loaded image contents are opaque: the model is parameterised by an
arbitrary `imread : String → Img`.  The files an external converter leaves
on disk are likewise opaque, parameterised by `convOut : String → List
String` (the paths written by the process invoked with a given command
line).  The external transcoder (ffmpeg) is an opaque collaborator; per the
spec it produces its output-path argument, which is how its effect is
modelled.
-/

/-- Python single-character split on a character list: a list of the
maximal chunks between occurrences of `c`, empty chunks kept, as
`str.split(c)` behaves for an explicit one-character separator. -/
def splitChar (c : Char) : List Char → List (List Char)
  | [] => [[]]
  | a :: rest =>
    match splitChar c rest with
    | [] => [[]]
    | h :: t => if a = c then [] :: h :: t else (a :: h) :: t

/-- Python `s.split(c)` for a one-character separator `c`. -/
def pySplit (c : Char) (s : String) : List String :=
  (splitChar c s.toList).map List.asString

/-- Python list indexing `[-1]` on the (always nonempty) result of a split. -/
def lastElem (l : List String) : String := l.getLastD ""

/-- Python list indexing `[0]` on the (always nonempty) result of a split. -/
def firstElem (l : List String) : String := l.headD ""

/-- The extension computation of `get_file_extension` (convert.py line 28)
and `YUVReader._get_file_extension` (line 62):
`file_path.split('/')[-1].split('.')[-1]`, with no dot. -/
def get_file_extension (file_path : String) : String :=
  lastElem (pySplit '.' (lastElem (pySplit '/' file_path)))

/-- Python `range(start, stop)` over integers, in increasing order;
empty when `stop ≤ start`. -/
def pyRange (start stop : Int) : List Int :=
  (List.range (stop - start).toNat).map (fun i => start + Int.ofNat i)

/-- Python dictionary assignment `d[k] = v` on an insertion-ordered
association list: an existing key is overwritten in place, a new key is
appended at the end. -/
def dictInsert {α : Type} (k : Int) (v : α) : List (Int × α) → List (Int × α)
  | [] => [(k, v)]
  | (k0, v0) :: rest =>
    if k0 = k then (k, v) :: rest else (k0, v0) :: dictInsert k v rest

/-- Concatenation of `f` over a list (the flattened map). -/
def flatOver {α β : Type} (f : α → List β) : List α → List β
  | [] => []
  | x :: rest => f x ++ flatOver f rest

/-- Boolean list-prefix test on character lists. -/
def isPre : List Char → List Char → Bool
  | [], _ => true
  | _, [] => false
  | a :: as, b :: bs => a = b && isPre as bs

/-- Boolean string-prefix test. -/
def strPre (p s : String) : Bool := isPre p.toList s.toList

/-- Whether a path ends with the path separator. -/
def endsSlash (d : String) : Bool := d.toList.getLastD ' ' = '/'

/-- The path with a trailing separator ensured. -/
def dirSlash (d : String) : String := if endsSlash d then d else d ++ "/"

/-- Whether path `p` names an entry strictly inside directory `d`: `p`
extends `d`-with-a-trailing-separator. -/
def underDir (d p : String) : Bool := strPre (dirSlash d) p

/-- The file-system world the reader affects: the directories and files
that exist on disk. -/
@[ext]
structure World where
  dirs : List String
  files : List String
deriving DecidableEq

/-- Effect of `shutil.rmtree d`: the directory, everything beneath it
(subdirectories and files) is removed. -/
def World.rmtree (w : World) (d : String) : World :=
  { dirs := w.dirs.filter (fun x => !(x == d || underDir d x))
  , files := w.files.filter (fun f => !underDir d f) }

/-- Effect of `os.makedirs(d)` guarded by `os.path.exists` (convert.py
lines 44 - 45): the directory is created when missing. -/
def World.mkdirIfMissing (w : World) (d : String) : World :=
  if d ∈ w.dirs then w else { w with dirs := d :: w.dirs }

/-- One observable step of the reader, in program order.  `spawnShell` /
`exitShell` bracket a blocking `subprocess.call(cmd, shell=True)`;
`spawnList` / `exitList` bracket a blocking `subprocess.call(args)`;
`load` is an `imread`; `store` is the assignment `self.frames[idx] = frame`;
`rmtreeEv` is `shutil.rmtree`. -/
inductive Event where
  | spawnShell (cmd : String) : Event
  | exitShell (cmd : String) : Event
  | spawnList (args : List String) : Event
  | exitList (args : List String) : Event
  | load (path : String) : Event
  | store (idx : Int) : Event
  | rmtreeEv (dir : String) : Event
deriving DecidableEq

/-- A frame: the mapping from channel name to loaded image plane
(insertion-ordered, as a Python dict literal). -/
abbrev Frame (Img : Type) := List (String × Img)

/-- The mutable state threaded through `_read`: the frame store
`self.frames`, the file-system world, and the trace of events so far. -/
@[ext]
structure RState (Img : Type) where
  frames : List (Int × Frame Img)
  world : World
  trace : List Event
deriving DecidableEq

/-- The shell command of `_read_yuv` (convert.py line 76):
`bash bash_utils/yuv_to_png.sh {input} {out_dir} {idx}
bash_utils/convert_img.py {size[0]} {size[1]}`. -/
def yuv_to_png_cmd (input out_dir : String) (idx w h : Int) : String :=
  "bash bash_utils/yuv_to_png.sh " ++ input ++ " " ++ out_dir ++ " "
    ++ toString idx ++ " bash_utils/convert_img.py "
    ++ toString w ++ " " ++ toString h

/-- The shell command of `_read_y` (convert.py line 88):
`bash bash_utils/y_to_png.sh {input} {out_dir} {idx}
bash_utils/convert_img.py {size[0]} {size[1]}`. -/
def y_to_png_cmd (input out_dir : String) (idx w h : Int) : String :=
  "bash bash_utils/y_to_png.sh " ++ input ++ " " ++ out_dir ++ " "
    ++ toString idx ++ " bash_utils/convert_img.py "
    ++ toString w ++ " " ++ toString h

/-- The image path read by `_read_yuv` (convert.py lines 78 - 80):
`f"{out_dir}{idx}_{ch}.png"` - plain concatenation, with NO separator
inserted between the directory and the file name. -/
def yuvChannelPath (out_dir : String) (idx : Int) (ch : String) : String :=
  out_dir ++ toString idx ++ "_" ++ ch ++ ".png"

/-- The image path read by `_read_y` (convert.py line 90):
`f"{out_dir}/{idx}_y.png"` - here a `/` IS inserted. -/
def yChannelPath (out_dir : String) (idx : Int) : String :=
  out_dir ++ "/" ++ toString idx ++ "_y.png"

/-- The frame value stored by one `_read_yuv` iteration: channels y, u, v
loaded from the separator-less concatenated paths. -/
def yuvFrame {Img : Type} (imread : String → Img) (out_dir : String)
    (idx : Int) : Frame Img :=
  [("y", imread (yuvChannelPath out_dir idx "y")),
   ("u", imread (yuvChannelPath out_dir idx "u")),
   ("v", imread (yuvChannelPath out_dir idx "v"))]

/-- The frame value stored by one `_read_y` iteration: the single luma
channel. -/
def yFrame {Img : Type} (imread : String → Img) (out_dir : String)
    (idx : Int) : Frame Img :=
  [("y", imread (yChannelPath out_dir idx))]

/-- The events of one `_read_yuv` iteration for index `idx`: the converter
subprocess is spawned and runs to completion (the call blocks), then the
three channel images are loaded, then the frame is stored. -/
def yuvBlock (input out_dir : String) (sw sh idx : Int) : List Event :=
  [Event.spawnShell (yuv_to_png_cmd input out_dir idx sw sh),
   Event.exitShell (yuv_to_png_cmd input out_dir idx sw sh),
   Event.load (yuvChannelPath out_dir idx "y"),
   Event.load (yuvChannelPath out_dir idx "u"),
   Event.load (yuvChannelPath out_dir idx "v"),
   Event.store idx]

/-- The events of one `_read_y` iteration for index `idx`. -/
def yBlock (input out_dir : String) (sw sh idx : Int) : List Event :=
  [Event.spawnShell (y_to_png_cmd input out_dir idx sw sh),
   Event.exitShell (y_to_png_cmd input out_dir idx sw sh),
   Event.load (yChannelPath out_dir idx),
   Event.store idx]

/-- The constructor arguments of `YUVReader.__init__` (convert.py line
40): input path, `[width, height]`, start and end frame indices (end
exclusive), frame rate, output directory, cleanup flag. -/
structure Args where
  input : String
  size : Int × Int
  start : Int
  stop : Int
  fps : Int
  out_dir : String
  clean : Bool
deriving DecidableEq

/-- One iteration of the loop of `YUVReader._read_yuv` (convert.py lines
75 - 81): run the converter on the frame index (the call blocks until the
process exits, and the files it leaves behind are given by `convOut` of
the command line), load the three channel images, store the frame. -/
def read_yuv_step {Img : Type} (imread : String → Img)
    (convOut : String → List String) (a : Args) (input : String)
    (idx : Int) (s : RState Img) : RState Img :=
  { frames := dictInsert idx (yuvFrame imread a.out_dir idx) s.frames
  , world := { dirs := s.world.dirs
             , files := s.world.files
                 ++ convOut (yuv_to_png_cmd input a.out_dir idx a.size.1 a.size.2) }
  , trace := s.trace ++ yuvBlock input a.out_dir a.size.1 a.size.2 idx }

/-- `YUVReader._read_yuv` (convert.py lines 73 - 83): loop over
`range(start, end)`, then `shutil.rmtree(out_dir)` when the cleanup flag
is set. -/
def read_yuv {Img : Type} (imread : String → Img)
    (convOut : String → List String) (a : Args) (input : String)
    (s : RState Img) : RState Img :=
  let s1 := (pyRange a.start a.stop).foldl
    (fun st idx => read_yuv_step imread convOut a input idx st) s
  if a.clean then
    { s1 with world := s1.world.rmtree a.out_dir
            , trace := s1.trace ++ [Event.rmtreeEv a.out_dir] }
  else s1

/-- One iteration of the loop of `YUVReader._read_y` (convert.py lines
87 - 91). -/
def read_y_step {Img : Type} (imread : String → Img)
    (convOut : String → List String) (a : Args) (input : String)
    (idx : Int) (s : RState Img) : RState Img :=
  { frames := dictInsert idx (yFrame imread a.out_dir idx) s.frames
  , world := { dirs := s.world.dirs
             , files := s.world.files
                 ++ convOut (y_to_png_cmd input a.out_dir idx a.size.1 a.size.2) }
  , trace := s.trace ++ yBlock input a.out_dir a.size.1 a.size.2 idx }

/-- `YUVReader._read_y` (convert.py lines 85 - 93). -/
def read_y {Img : Type} (imread : String → Img)
    (convOut : String → List String) (a : Args) (input : String)
    (s : RState Img) : RState Img :=
  let s1 := (pyRange a.start a.stop).foldl
    (fun st idx => read_y_step imread convOut a input idx st) s
  if a.clean then
    { s1 with world := s1.world.rmtree a.out_dir
            , trace := s1.trace ++ [Event.rmtreeEv a.out_dir] }
  else s1

/-- The intermediate transcoded path of the mp4 branch (convert.py line
108): `self.out_dir + self.input.split('/')[-1].split('.')[0] + '.yuv'` -
plain concatenation of the output directory with the part of the basename
before its FIRST dot, plus `.yuv`. -/
def out_yuv_path (out_dir input : String) : String :=
  out_dir ++ firstElem (pySplit '.' (lastElem (pySplit '/' input))) ++ ".yuv"

/-- The argument list of the transcoder call (convert.py line 109):
`['ffmpeg','-nostats','-loglevel','error','-i', input, out_yuv, '-r',
str(fps)]`. -/
def ffmpegArgs (input out_yuv : String) (fps : Int) : List String :=
  ["ffmpeg", "-nostats", "-loglevel", "error", "-i", input, out_yuv,
   "-r", toString fps]

/-- `YUVReader._read` (convert.py lines 95 - 111): three independent `if`
tests on the extension, in source order.  The mp4 branch first calls the
external transcoder (a blocking `subprocess.call` on `ffmpegArgs`; per the
spec the transcoder produces the intermediate raw file at its output-path
argument, which is how its effect on the world is modelled), then runs the
raw-YUV extraction on the transcoded path. -/
def _read {Img : Type} (imread : String → Img)
    (convOut : String → List String) (a : Args) (ext : String)
    (s : RState Img) : RState Img :=
  let s1 := if ext = "yuv" then read_yuv imread convOut a a.input s else s
  let s2 := if ext = "y" then read_y imread convOut a a.input s1 else s1
  if ext = "mp4" then
    let out_yuv := out_yuv_path a.out_dir a.input
    let args := ffmpegArgs a.input out_yuv a.fps
    let s3 : RState Img :=
      { frames := s2.frames
      , world := { dirs := s2.world.dirs, files := s2.world.files ++ [out_yuv] }
      , trace := s2.trace ++ [Event.spawnList args, Event.exitList args] }
    read_yuv imread convOut a out_yuv s3
  else s2

/-- The outcome of running `YUVReader.__init__`: either the process
terminated via `sys.exit` (carrying the printed message and the world at
that moment - no frame store escapes, no frame was read), or the
constructor finished with the populated frame store, the final world and
the full event trace. -/
inductive InitOutcome (Img : Type) where
  | fatalExit (msg : String) (world : World) : InitOutcome Img
  | done (frames : List (Int × Frame Img)) (world : World)
      (trace : List Event) : InitOutcome Img
deriving DecidableEq

/-- The message printed before `sys.exit()` (convert.py line 55). -/
def errorMsg : String :=
  "[ERROR]: Number of frames must be greater than 0! Exiting.."

/-- `YUVReader.__init__` (convert.py lines 40 - 58): create the output
directory when missing, initialise the empty frame store, check
`n_frames = end - start`; when non-positive, print and `sys.exit()`
(before any branch runs); otherwise compute the extension and run
`_read`. -/
def YUVReader.init {Img : Type} (imread : String → Img)
    (convOut : String → List String) (a : Args) (w0 : World) :
    InitOutcome Img :=
  let w1 := w0.mkdirIfMissing a.out_dir
  if a.stop - a.start ≤ 0 then InitOutcome.fatalExit errorMsg w1
  else
    let s := _read imread convOut a (get_file_extension a.input)
      { frames := [], world := w1, trace := [] }
    InitOutcome.done s.frames s.world s.trace

/-- The frame store of an outcome (empty at a fatal exit: the constructor
aborted before reading any frame). -/
def InitOutcome.framesOf {Img : Type} :
    InitOutcome Img → List (Int × Frame Img)
  | .fatalExit _ _ => []
  | .done fs _ _ => fs

/-- The file-system world after the constructor ran (or at the moment of
the fatal exit). -/
def InitOutcome.worldOf {Img : Type} : InitOutcome Img → World
  | .fatalExit _ w => w
  | .done _ w _ => w

/-- The event trace of an outcome (empty at a fatal exit: nothing was
spawned, loaded or stored). -/
def InitOutcome.traceOf {Img : Type} : InitOutcome Img → List Event
  | .fatalExit _ _ => []
  | .done _ _ tr => tr

/-- The key list of a frame store, in insertion order. -/
def keysOf {Img : Type} (fs : List (Int × Frame Img)) : List Int :=
  fs.map Prod.fst

/-- The channel-key list of a frame, in insertion order. -/
def channelsOf {Img : Type} (fr : Frame Img) : List String :=
  fr.map Prod.fst

/-- The image paths loaded along a trace, in order. -/
def loadsOf (tr : List Event) : List String :=
  tr.filterMap (fun e => match e with | Event.load p => some p | _ => none)

/-- The initial `_read` state: empty frame store, the world after the
constructor's `os.makedirs`, empty trace. -/
def initState {Img : Type} (a : Args) (w0 : World) : RState Img :=
  { frames := [], world := w0.mkdirIfMissing a.out_dir, trace := [] }

/-- Packaging of a finished `_read` state as the constructor's outcome. -/
def mkDone {Img : Type} (s : RState Img) : InitOutcome Img :=
  InitOutcome.done s.frames s.world s.trace

/-- The `_read` state right after the mp4 branch's transcoder call:
the world has gained the intermediate file, the trace the blocking
transcoder call. -/
def ffmpegState {Img : Type} (a : Args) (w0 : World) : RState Img :=
  { frames := []
  , world := { dirs := (w0.mkdirIfMissing a.out_dir).dirs
             , files := (w0.mkdirIfMissing a.out_dir).files
                 ++ [out_yuv_path a.out_dir a.input] }
  , trace := [Event.spawnList (ffmpegArgs a.input (out_yuv_path a.out_dir a.input) a.fps),
              Event.exitList (ffmpegArgs a.input (out_yuv_path a.out_dir a.input) a.fps)] }

/-- The trailing cleanup event of a strategy, per the cleanup flag. -/
def cleanSuffix (a : Args) : List Event :=
  if a.clean then [Event.rmtreeEv a.out_dir] else []

/-- A trivial image environment for concrete runs. -/
def unitRead : String → Unit := fun _ => ()

/-- A converter environment that leaves no files behind. -/
def noFiles : String → List String := fun _ => []

/-- An empty disk. -/
def emptyWorld : World := { dirs := [], files := [] }

/-! ## Helper lemmas -/

theorem keysOf_append {Img : Type} (d1 d2 : List (Int × Frame Img)) :
    keysOf (d1 ++ d2) = keysOf d1 ++ keysOf d2 := by
  simp [keysOf]

theorem dictInsert_eq_append {Img : Type} (k : Int) (v : Frame Img) :
    ∀ (d : List (Int × Frame Img)), k ∉ keysOf d →
      dictInsert k v d = d ++ [(k, v)]
  | [], _ => rfl
  | (k0, v0) :: rest, h => by
      have hk : k0 ≠ k := by
        intro he; exact h (by simp [keysOf, he])
      have hrest : k ∉ keysOf rest := by
        intro hm; exact h (by simp [keysOf] at hm ⊢; exact Or.inr hm)
      simp [dictInsert, hk, dictInsert_eq_append k v rest hrest]

theorem keysOf_foldl_dictInsert {Img : Type} (f : Int → Frame Img) :
    ∀ (l : List Int) (d : List (Int × Frame Img)), l.Nodup →
      (∀ k ∈ l, k ∉ keysOf d) →
      keysOf (l.foldl (fun d k => dictInsert k (f k) d) d) = keysOf d ++ l
  | [], d, _, _ => by simp
  | i :: rest, d, hnd, hfresh => by
      rw [List.foldl_cons, dictInsert_eq_append i (f i) d (hfresh i (by simp))]
      have hnd2 : rest.Nodup := (List.nodup_cons.mp hnd).2
      have hni : i ∉ rest := (List.nodup_cons.mp hnd).1
      have hfresh2 : ∀ k ∈ rest, k ∉ keysOf (d ++ [(i, f i)]) := by
        intro k hk hmem
        rw [keysOf_append] at hmem
        rcases List.mem_append.mp hmem with h1 | h1
        · exact hfresh k (by simp [hk]) h1
        · simp [keysOf] at h1
          exact hni (h1 ▸ hk)
      rw [keysOf_foldl_dictInsert f rest (d ++ [(i, f i)]) hnd2 hfresh2,
        keysOf_append]
      simp [keysOf]

theorem mem_dictInsert {Img : Type} (p : Int × Frame Img) (k : Int)
    (v : Frame Img) :
    ∀ (d : List (Int × Frame Img)), p ∈ dictInsert k v d →
      p = (k, v) ∨ p ∈ d
  | [], h => by
      simp [dictInsert] at h
      exact Or.inl h
  | (k0, v0) :: rest, h => by
      by_cases he : k0 = k
      · simp [dictInsert, he] at h
        rcases h with h | h
        · exact Or.inl (by simp [h])
        · exact Or.inr (by simp [h])
      · simp [dictInsert, he] at h
        rcases h with h | h
        · exact Or.inr (by simp [h])
        · rcases mem_dictInsert p k v rest h with h1 | h1
          · exact Or.inl h1
          · exact Or.inr (by simp [h1])

theorem frames_foldl_pred {Img : Type} (f : Int → Frame Img)
    (P : Frame Img → Prop) (hP : ∀ k, P (f k)) :
    ∀ (l : List Int) (d : List (Int × Frame Img)), (∀ p ∈ d, P p.2) →
      ∀ p ∈ l.foldl (fun d k => dictInsert k (f k) d) d, P p.2
  | [], d, hd, p, hp => hd p hp
  | i :: rest, d, hd, p, hp => by
      rw [List.foldl_cons] at hp
      refine frames_foldl_pred f P hP rest (dictInsert i (f i) d) ?_ p hp
      intro q hq
      rcases mem_dictInsert q i (f i) d hq with h1 | h1
      · rw [h1]; exact hP i
      · exact hd q h1

theorem pyRange_nodup (start stop : Int) : (pyRange start stop).Nodup := by
  rw [pyRange]
  refine List.Nodup.map ?_ (List.nodup_range _)
  intro i j h
  have h2 : start + Int.ofNat i = start + Int.ofNat j := h
  exact Int.ofNat.inj (add_left_cancel h2)

theorem pyRange_pairwise (start stop : Int) :
    List.Pairwise (· < ·) (pyRange start stop) := by
  rw [pyRange, List.pairwise_map]
  refine (List.pairwise_lt_range _).imp ?_
  intro i j h
  show start + Int.ofNat i < start + Int.ofNat j
  exact add_lt_add_left (Int.ofNat_lt.mpr h) start

theorem flatOver_nil {α β : Type} (f : α → List β) : flatOver f [] = [] := rfl

theorem flatOver_cons {α β : Type} (f : α → List β) (x : α) (l : List α) :
    flatOver f (x :: l) = f x ++ flatOver f l := rfl

theorem read_yuv_foldl {Img : Type} (imread : String → Img)
    (convOut : String → List String) (a : Args) (input : String) :
    ∀ (l : List Int) (s : RState Img),
      l.foldl (fun st idx => read_yuv_step imread convOut a input idx st) s
      = { frames := l.foldl
            (fun d idx => dictInsert idx (yuvFrame imread a.out_dir idx) d)
            s.frames
        , world := { dirs := s.world.dirs
                   , files := s.world.files ++ flatOver
                       (fun idx => convOut (yuv_to_png_cmd input a.out_dir idx
                         a.size.1 a.size.2)) l }
        , trace := s.trace ++ flatOver
            (yuvBlock input a.out_dir a.size.1 a.size.2) l }
  | [], s => by simp [flatOver]
  | idx :: rest, s => by
      rw [List.foldl_cons, read_yuv_foldl imread convOut a input rest]
      simp [read_yuv_step, flatOver, List.append_assoc]

theorem read_y_foldl {Img : Type} (imread : String → Img)
    (convOut : String → List String) (a : Args) (input : String) :
    ∀ (l : List Int) (s : RState Img),
      l.foldl (fun st idx => read_y_step imread convOut a input idx st) s
      = { frames := l.foldl
            (fun d idx => dictInsert idx (yFrame imread a.out_dir idx) d)
            s.frames
        , world := { dirs := s.world.dirs
                   , files := s.world.files ++ flatOver
                       (fun idx => convOut (y_to_png_cmd input a.out_dir idx
                         a.size.1 a.size.2)) l }
        , trace := s.trace ++ flatOver
            (yBlock input a.out_dir a.size.1 a.size.2) l }
  | [], s => by simp [flatOver]
  | idx :: rest, s => by
      rw [List.foldl_cons, read_y_foldl imread convOut a input rest]
      simp [read_y_step, flatOver, List.append_assoc]

theorem read_yuv_frames {Img : Type} (imread : String → Img)
    (convOut : String → List String) (a : Args) (input : String)
    (s : RState Img) :
    (read_yuv imread convOut a input s).frames
      = (pyRange a.start a.stop).foldl
          (fun d idx => dictInsert idx (yuvFrame imread a.out_dir idx) d)
          s.frames := by
  rw [read_yuv]
  cases a.clean <;> simp [read_yuv_foldl]

theorem read_y_frames {Img : Type} (imread : String → Img)
    (convOut : String → List String) (a : Args) (input : String)
    (s : RState Img) :
    (read_y imread convOut a input s).frames
      = (pyRange a.start a.stop).foldl
          (fun d idx => dictInsert idx (yFrame imread a.out_dir idx) d)
          s.frames := by
  rw [read_y]
  cases a.clean <;> simp [read_y_foldl]

theorem read_yuv_trace {Img : Type} (imread : String → Img)
    (convOut : String → List String) (a : Args) (input : String)
    (s : RState Img) :
    (read_yuv imread convOut a input s).trace
      = s.trace
        ++ flatOver (yuvBlock input a.out_dir a.size.1 a.size.2)
             (pyRange a.start a.stop)
        ++ cleanSuffix a := by
  rw [read_yuv]
  cases hc : a.clean <;> simp [read_yuv_foldl, cleanSuffix, hc]

theorem read_y_trace {Img : Type} (imread : String → Img)
    (convOut : String → List String) (a : Args) (input : String)
    (s : RState Img) :
    (read_y imread convOut a input s).trace
      = s.trace
        ++ flatOver (yBlock input a.out_dir a.size.1 a.size.2)
             (pyRange a.start a.stop)
        ++ cleanSuffix a := by
  rw [read_y]
  cases hc : a.clean <;> simp [read_y_foldl, cleanSuffix, hc]

theorem read_yuv_world_clean {Img : Type} (imread : String → Img)
    (convOut : String → List String) (a : Args) (input : String)
    (s : RState Img) (hc : a.clean = true) :
    (read_yuv imread convOut a input s).world
      = World.rmtree
          { dirs := s.world.dirs
          , files := s.world.files ++ flatOver
              (fun idx => convOut (yuv_to_png_cmd input a.out_dir idx
                a.size.1 a.size.2)) (pyRange a.start a.stop) }
          a.out_dir := by
  rw [read_yuv]
  simp [read_yuv_foldl, hc]

theorem read_y_world_clean {Img : Type} (imread : String → Img)
    (convOut : String → List String) (a : Args) (input : String)
    (s : RState Img) (hc : a.clean = true) :
    (read_y imread convOut a input s).world
      = World.rmtree
          { dirs := s.world.dirs
          , files := s.world.files ++ flatOver
              (fun idx => convOut (y_to_png_cmd input a.out_dir idx
                a.size.1 a.size.2)) (pyRange a.start a.stop) }
          a.out_dir := by
  rw [read_y]
  simp [read_y_foldl, hc]

theorem read_yuv_world_noclean {Img : Type} (imread : String → Img)
    (convOut : String → List String) (a : Args) (input : String)
    (s : RState Img) (hc : a.clean = false) :
    (read_yuv imread convOut a input s).world
      = { dirs := s.world.dirs
        , files := s.world.files ++ flatOver
            (fun idx => convOut (yuv_to_png_cmd input a.out_dir idx
              a.size.1 a.size.2)) (pyRange a.start a.stop) } := by
  rw [read_yuv]
  simp [read_yuv_foldl, hc]

theorem not_mem_rmtree_dirs (w : World) (d : String) :
    d ∉ (w.rmtree d).dirs := by
  intro h
  rw [World.rmtree] at h
  have := (List.mem_filter.mp h).2
  simp at this

theorem rmtree_dirs_not_under (w : World) (d : String) :
    ∀ x ∈ (w.rmtree d).dirs, underDir d x = false := by
  intro x hx
  have := (List.mem_filter.mp hx).2
  simp at this
  exact this.2

theorem rmtree_files_not_under (w : World) (d : String) :
    ∀ f ∈ (w.rmtree d).files, underDir d f = false := by
  intro f hf
  have := (List.mem_filter.mp hf).2
  simp at this
  exact this

theorem mem_mkdirIfMissing (w : World) (d : String) :
    d ∈ (w.mkdirIfMissing d).dirs := by
  rw [World.mkdirIfMissing]
  by_cases h : d ∈ w.dirs <;> simp [h]

theorem isPre_append (l r : List Char) : isPre l (l ++ r) = true := by
  induction l with
  | nil => simp [isPre]
  | cons a as ih => simp [isPre, ih]

theorem strPre_append (p s : String) : strPre p (p ++ s) = true := by
  rw [strPre]
  have h : (p ++ s).toList = p.toList ++ s.toList := by
    simp [String.toList]
  rw [h]
  exact isPre_append _ _

theorem underDir_append_of_endsSlash (d rest : String)
    (h : endsSlash d = true) : underDir d (d ++ rest) = true := by
  rw [underDir, dirSlash, if_pos h]
  exact strPre_append _ _

theorem loadsOf_append (t1 t2 : List Event) :
    loadsOf (t1 ++ t2) = loadsOf t1 ++ loadsOf t2 := by
  simp [loadsOf]

theorem loadsOf_flatOver (f : Int → List Event) (l : List Int) :
    loadsOf (flatOver f l) = flatOver (fun i => loadsOf (f i)) l := by
  induction l with
  | nil => rfl
  | cons x xs ih => rw [flatOver_cons, loadsOf_append, ih, flatOver_cons]

theorem loadsOf_yuvBlock (input out_dir : String) (sw sh idx : Int) :
    loadsOf (yuvBlock input out_dir sw sh idx)
      = [yuvChannelPath out_dir idx "y", yuvChannelPath out_dir idx "u",
         yuvChannelPath out_dir idx "v"] := rfl

theorem loadsOf_yBlock (input out_dir : String) (sw sh idx : Int) :
    loadsOf (yBlock input out_dir sw sh idx)
      = [yChannelPath out_dir idx] := rfl

theorem loadsOf_cleanSuffix (a : Args) : loadsOf (cleanSuffix a) = [] := by
  rw [cleanSuffix]
  cases a.clean <;> rfl

theorem _read_yuv_branch {Img : Type} (imread : String → Img)
    (convOut : String → List String) (a : Args) (s : RState Img) :
    _read imread convOut a "yuv" s = read_yuv imread convOut a a.input s := by
  rw [_read]
  simp

theorem _read_y_branch {Img : Type} (imread : String → Img)
    (convOut : String → List String) (a : Args) (s : RState Img) :
    _read imread convOut a "y" s = read_y imread convOut a a.input s := by
  rw [_read]
  simp

theorem _read_mp4_branch {Img : Type} (imread : String → Img)
    (convOut : String → List String) (a : Args) (s : RState Img) :
    _read imread convOut a "mp4" s
      = read_yuv imread convOut a (out_yuv_path a.out_dir a.input)
          { frames := s.frames
          , world := { dirs := s.world.dirs
                     , files := s.world.files ++ [out_yuv_path a.out_dir a.input] }
          , trace := s.trace
              ++ [Event.spawnList (ffmpegArgs a.input
                    (out_yuv_path a.out_dir a.input) a.fps),
                  Event.exitList (ffmpegArgs a.input
                    (out_yuv_path a.out_dir a.input) a.fps)] } := by
  rw [_read]
  simp

theorem _read_other {Img : Type} (imread : String → Img)
    (convOut : String → List String) (a : Args) (ext : String)
    (s : RState Img) (h1 : ext ≠ "yuv") (h2 : ext ≠ "y")
    (h3 : ext ≠ "mp4") :
    _read imread convOut a ext s = s := by
  rw [_read]
  simp [h1, h2, h3]

theorem init_eq_done {Img : Type} (imread : String → Img)
    (convOut : String → List String) (a : Args) (w0 : World)
    (h : a.start < a.stop) :
    YUVReader.init imread convOut a w0
      = mkDone (_read imread convOut a (get_file_extension a.input)
          (initState a w0)) := by
  rw [YUVReader.init, mkDone, initState]
  rw [if_neg (by omega)]

theorem init_eq_exit {Img : Type} (imread : String → Img)
    (convOut : String → List String) (a : Args) (w0 : World)
    (h : a.stop ≤ a.start) :
    YUVReader.init imread convOut a w0
      = InitOutcome.fatalExit errorMsg (w0.mkdirIfMissing a.out_dir) := by
  rw [YUVReader.init]
  rw [if_pos (by omega)]

theorem framesOf_mkDone {Img : Type} (s : RState Img) :
    (mkDone s).framesOf = s.frames := rfl

theorem worldOf_mkDone {Img : Type} (s : RState Img) :
    (mkDone s).worldOf = s.world := rfl

theorem traceOf_mkDone {Img : Type} (s : RState Img) :
    (mkDone s).traceOf = s.trace := rfl

theorem keys_read_yuv_empty {Img : Type} (imread : String → Img)
    (convOut : String → List String) (a : Args) (input : String)
    (s : RState Img) (hs : s.frames = []) :
    keysOf ((read_yuv imread convOut a input s).frames)
      = pyRange a.start a.stop := by
  rw [read_yuv_frames, hs]
  have h := keysOf_foldl_dictInsert (fun idx => yuvFrame imread a.out_dir idx)
    (pyRange a.start a.stop) [] (pyRange_nodup _ _)
    (by intro k hk; simp [keysOf])
  simpa [keysOf] using h

theorem keys_read_y_empty {Img : Type} (imread : String → Img)
    (convOut : String → List String) (a : Args) (input : String)
    (s : RState Img) (hs : s.frames = []) :
    keysOf ((read_y imread convOut a input s).frames)
      = pyRange a.start a.stop := by
  rw [read_y_frames, hs]
  have h := keysOf_foldl_dictInsert (fun idx => yFrame imread a.out_dir idx)
    (pyRange a.start a.stop) [] (pyRange_nodup _ _)
    (by intro k hk; simp [keysOf])
  simpa [keysOf] using h

theorem channels_read_yuv {Img : Type} (imread : String → Img)
    (convOut : String → List String) (a : Args) (input : String)
    (s : RState Img)
    (hs : ∀ p ∈ s.frames, channelsOf p.2 = ["y", "u", "v"]) :
    ∀ p ∈ (read_yuv imread convOut a input s).frames,
      channelsOf p.2 = ["y", "u", "v"] := by
  rw [read_yuv_frames]
  exact frames_foldl_pred (fun idx => yuvFrame imread a.out_dir idx)
    (fun fr => channelsOf fr = ["y", "u", "v"]) (fun k => rfl)
    (pyRange a.start a.stop) s.frames hs

theorem channels_read_y {Img : Type} (imread : String → Img)
    (convOut : String → List String) (a : Args) (input : String)
    (s : RState Img)
    (hs : ∀ p ∈ s.frames, channelsOf p.2 = ["y"]) :
    ∀ p ∈ (read_y imread convOut a input s).frames,
      channelsOf p.2 = ["y"] := by
  rw [read_y_frames]
  exact frames_foldl_pred (fun idx => yFrame imread a.out_dir idx)
    (fun fr => channelsOf fr = ["y"]) (fun k => rfl)
    (pyRange a.start a.stop) s.frames hs

/-! ## Claim theorems -/

/-- C1 (counterexample): the claim quantifies over EVERY construction with
`end > start`, but for an input whose extension is none of yuv / y / mp4
(here `frame.txt`) no ingestion branch runs and the frame store stays
empty, so its key set is not `[start, end) = [0, 1)`. -/
theorem c1_counterexample :
    keysOf ((YUVReader.init unitRead noFiles
      { input := "frame.txt", size := (4, 4), start := 0, stop := 1,
        fps := 10, out_dir := "out/", clean := true } emptyWorld).framesOf)
      ≠ pyRange 0 1 := by decide

/-- C1 (amended): for every construction with `end > start` whose input
extension is yuv, y or mp4, the key list of the resulting frame store is
exactly the integer range `[start, end)` - every index in the range is
present and no other key is. -/
theorem c1_frame_keys {Img : Type} (imread : String → Img)
    (convOut : String → List String) (a : Args) (w0 : World)
    (hrange : a.start < a.stop)
    (hext : get_file_extension a.input = "yuv"
      ∨ get_file_extension a.input = "y"
      ∨ get_file_extension a.input = "mp4") :
    keysOf ((YUVReader.init imread convOut a w0).framesOf)
      = pyRange a.start a.stop := by
  rw [init_eq_done imread convOut a w0 hrange]
  rcases hext with h | h | h
  · rw [h, _read_yuv_branch, framesOf_mkDone]
    exact keys_read_yuv_empty imread convOut a a.input _ rfl
  · rw [h, _read_y_branch, framesOf_mkDone]
    exact keys_read_y_empty imread convOut a a.input _ rfl
  · rw [h, _read_mp4_branch, framesOf_mkDone]
    exact keys_read_yuv_empty imread convOut a _ _ rfl

/-- Witness for C1's theorem: a concrete yuv run with `[start, end) =
[0, 2)` whose key list is `[0, 1]`. -/
theorem c1_frame_keys_witness :
    keysOf ((YUVReader.init unitRead noFiles
      { input := "clip.yuv", size := (2, 2), start := 0, stop := 2,
        fps := 10, out_dir := "o/", clean := false } emptyWorld).framesOf)
      = pyRange 0 2 :=
  c1_frame_keys unitRead noFiles
    { input := "clip.yuv", size := (2, 2), start := 0, stop := 2,
      fps := 10, out_dir := "o/", clean := false } emptyWorld
    (by decide) (Or.inl (by decide))

/-- C2: for a yuv or mp4 input every stored frame has exactly the channel
keys y, u, v (in that insertion order); for a y input every stored frame
has exactly the single channel key y. -/
theorem c2_frame_channels {Img : Type} (imread : String → Img)
    (convOut : String → List String) (a : Args) (w0 : World) :
    ((get_file_extension a.input = "yuv" ∨ get_file_extension a.input = "mp4") →
      ∀ p ∈ (YUVReader.init imread convOut a w0).framesOf,
        channelsOf p.2 = ["y", "u", "v"])
    ∧ (get_file_extension a.input = "y" →
      ∀ p ∈ (YUVReader.init imread convOut a w0).framesOf,
        channelsOf p.2 = ["y"]) := by
  by_cases hrange : a.start < a.stop
  · rw [init_eq_done imread convOut a w0 hrange]
    constructor
    · rintro (h | h)
      · rw [h, _read_yuv_branch, framesOf_mkDone]
        exact channels_read_yuv imread convOut a a.input _ (by simp [initState])
      · rw [h, _read_mp4_branch, framesOf_mkDone]
        exact channels_read_yuv imread convOut a _ _ (by simp [initState])
    · intro h
      rw [h, _read_y_branch, framesOf_mkDone]
      exact channels_read_y imread convOut a a.input _ (by simp [initState])
  · rw [init_eq_exit imread convOut a w0 (by omega)]
    constructor
    · rintro _ p hp
      simp [InitOutcome.framesOf] at hp
    · rintro _ p hp
      simp [InitOutcome.framesOf] at hp

/-- Witness for C2's theorem: the concrete instantiation at a luma-only
input. -/
theorem c2_frame_channels_witness :
    ((get_file_extension "seq.y" = "yuv" ∨ get_file_extension "seq.y" = "mp4") →
      ∀ p ∈ (YUVReader.init unitRead noFiles
        { input := "seq.y", size := (2, 2), start := 0, stop := 2,
          fps := 10, out_dir := "o/", clean := false } emptyWorld).framesOf,
        channelsOf p.2 = ["y", "u", "v"])
    ∧ (get_file_extension "seq.y" = "y" →
      ∀ p ∈ (YUVReader.init unitRead noFiles
        { input := "seq.y", size := (2, 2), start := 0, stop := 2,
          fps := 10, out_dir := "o/", clean := false } emptyWorld).framesOf,
        channelsOf p.2 = ["y"]) :=
  c2_frame_channels unitRead noFiles
    { input := "seq.y", size := (2, 2), start := 0, stop := 2,
      fps := 10, out_dir := "o/", clean := false } emptyWorld

/-- C3: when `end ≤ start` (the computed frame count is non-positive) the
constructor terminates the process at once with the error message, before
any branch runs - the outcome is the fatal exit, carrying no frame store
and no events; when `end > start` the constructor does not exit at this
check and finishes with a frame store. -/
theorem c3_range_check {Img : Type} (imread : String → Img)
    (convOut : String → List String) (a : Args) (w0 : World) :
    (a.stop ≤ a.start →
      YUVReader.init imread convOut a w0
        = InitOutcome.fatalExit errorMsg (w0.mkdirIfMissing a.out_dir))
    ∧ (a.start < a.stop →
      ∃ fs w tr, YUVReader.init imread convOut a w0
        = InitOutcome.done fs w tr) := by
  constructor
  · intro h
    exact init_eq_exit imread convOut a w0 h
  · intro h
    rw [init_eq_done imread convOut a w0 h]
    exact ⟨_, _, _, rfl⟩

/-- Witness for C3's theorem: the concrete instantiation at
`start = end = 0`. -/
theorem c3_range_check_witness :
    ((0 : Int) ≤ 0 →
      YUVReader.init unitRead noFiles
        { input := "clip.yuv", size := (2, 2), start := 0, stop := 0,
          fps := 10, out_dir := "o/", clean := false } emptyWorld
        = InitOutcome.fatalExit errorMsg (emptyWorld.mkdirIfMissing "o/"))
    ∧ ((0 : Int) < 0 →
      ∃ fs w tr, YUVReader.init unitRead noFiles
        { input := "clip.yuv", size := (2, 2), start := 0, stop := 0,
          fps := 10, out_dir := "o/", clean := false } emptyWorld
        = InitOutcome.done fs w tr) :=
  c3_range_check unitRead noFiles
    { input := "clip.yuv", size := (2, 2), start := 0, stop := 0,
      fps := 10, out_dir := "o/", clean := false } emptyWorld

/-- C4 (counterexample): the claim quantifies over EVERY input path, but
for an input with an unsupported extension (`video.txt`) no ingestion
branch runs, so no cleanup runs either, and the output directory created
by the constructor still exists after construction completes, cleanup
flag notwithstanding. -/
theorem c4_counterexample :
    "out/" ∈ ((YUVReader.init unitRead noFiles
      { input := "video.txt", size := (4, 4), start := 0, stop := 1,
        fps := 10, out_dir := "out/", clean := true } emptyWorld).worldOf).dirs := by
  decide

/-- C4 (amended): for every construction with the cleanup flag enabled,
`end > start` and a supported input extension (yuv, y or mp4), the output
directory does not exist after construction, and no file under it
remains - the intermediate images are gone with it. -/
theorem c4_cleanup {Img : Type} (imread : String → Img)
    (convOut : String → List String) (a : Args) (w0 : World)
    (hrange : a.start < a.stop) (hclean : a.clean = true)
    (hext : get_file_extension a.input = "yuv"
      ∨ get_file_extension a.input = "y"
      ∨ get_file_extension a.input = "mp4") :
    a.out_dir ∉ ((YUVReader.init imread convOut a w0).worldOf).dirs
    ∧ ∀ f ∈ ((YUVReader.init imread convOut a w0).worldOf).files,
        underDir a.out_dir f = false := by
  rw [init_eq_done imread convOut a w0 hrange]
  rcases hext with h | h | h
  · rw [h, _read_yuv_branch, worldOf_mkDone,
      read_yuv_world_clean imread convOut a a.input _ hclean]
    exact ⟨not_mem_rmtree_dirs _ _, rmtree_files_not_under _ _⟩
  · rw [h, _read_y_branch, worldOf_mkDone,
      read_y_world_clean imread convOut a a.input _ hclean]
    exact ⟨not_mem_rmtree_dirs _ _, rmtree_files_not_under _ _⟩
  · rw [h, _read_mp4_branch, worldOf_mkDone,
      read_yuv_world_clean imread convOut a _ _ hclean]
    exact ⟨not_mem_rmtree_dirs _ _, rmtree_files_not_under _ _⟩

/-- Witness for C4's theorem: a concrete yuv run with cleanup enabled. -/
theorem c4_cleanup_witness :
    "o/" ∉ ((YUVReader.init unitRead noFiles
      { input := "clip.yuv", size := (2, 2), start := 0, stop := 1,
        fps := 10, out_dir := "o/", clean := true } emptyWorld).worldOf).dirs
    ∧ ∀ f ∈ ((YUVReader.init unitRead noFiles
      { input := "clip.yuv", size := (2, 2), start := 0, stop := 1,
        fps := 10, out_dir := "o/", clean := true } emptyWorld).worldOf).files,
        underDir "o/" f = false :=
  c4_cleanup unitRead noFiles
    { input := "clip.yuv", size := (2, 2), start := 0, stop := 1,
      fps := 10, out_dir := "o/", clean := true } emptyWorld
    (by decide) rfl (Or.inl (by decide))

/-- C5: for an input whose computed extension is none of yuv, y or mp4,
construction with `end > start` silently completes: the outcome is a
normal `done` whose frame store is empty, whose trace is empty (no branch
executed, nothing was spawned, loaded or stored), and whose world is the
initial one with only the output directory created. -/
theorem c5_unsupported_empty {Img : Type} (imread : String → Img)
    (convOut : String → List String) (a : Args) (w0 : World)
    (hrange : a.start < a.stop)
    (h1 : get_file_extension a.input ≠ "yuv")
    (h2 : get_file_extension a.input ≠ "y")
    (h3 : get_file_extension a.input ≠ "mp4") :
    YUVReader.init imread convOut a w0
      = InitOutcome.done [] (w0.mkdirIfMissing a.out_dir) [] := by
  rw [init_eq_done imread convOut a w0 hrange,
    _read_other imread convOut a _ _ h1 h2 h3]
  rfl

/-- Witness for C5's theorem: a concrete run on a `.txt` input. -/
theorem c5_unsupported_empty_witness :
    YUVReader.init unitRead noFiles
      { input := "clip.txt", size := (2, 2), start := 0, stop := 2,
        fps := 10, out_dir := "o/", clean := true } emptyWorld
      = InitOutcome.done [] (emptyWorld.mkdirIfMissing "o/") [] :=
  c5_unsupported_empty unitRead noFiles
    { input := "clip.txt", size := (2, 2), start := 0, stop := 2,
      fps := 10, out_dir := "o/", clean := true } emptyWorld
    (by decide) (by decide) (by decide) (by decide)

theorem loadsOf_nil : loadsOf [] = [] := rfl

theorem loadsOf_ffmpeg (x : List String) :
    loadsOf [Event.spawnList x, Event.exitList x] = [] := rfl

theorem loadsOf_cons_spawnList (x : List String) (tr : List Event) :
    loadsOf (Event.spawnList x :: tr) = loadsOf tr := rfl

theorem loadsOf_cons_exitList (x : List String) (tr : List Event) :
    loadsOf (Event.exitList x :: tr) = loadsOf tr := rfl

/-- C6: extension dispatch.  A `yuv` extension runs the raw per-frame
extraction directly on the input path; a `y` extension runs the luma-only
extraction on the input path; an `mp4` extension first runs the blocking
external transcoder call `ffmpeg -nostats -loglevel error -i {input}
{out_yuv} -r {fps}` producing the intermediate file `out_yuv_path`, and
then runs the raw extraction on that transcoded output path. -/
theorem c6_extension_dispatch {Img : Type} (imread : String → Img)
    (convOut : String → List String) (a : Args) (w0 : World)
    (hrange : a.start < a.stop) :
    (get_file_extension a.input = "yuv" →
      YUVReader.init imread convOut a w0
        = mkDone (read_yuv imread convOut a a.input (initState a w0)))
    ∧ (get_file_extension a.input = "y" →
      YUVReader.init imread convOut a w0
        = mkDone (read_y imread convOut a a.input (initState a w0)))
    ∧ (get_file_extension a.input = "mp4" →
      YUVReader.init imread convOut a w0
        = mkDone (read_yuv imread convOut a (out_yuv_path a.out_dir a.input)
            (ffmpegState a w0))) := by
  refine ⟨fun h => ?_, fun h => ?_, fun h => ?_⟩ <;>
    rw [init_eq_done imread convOut a w0 hrange, h]
  · rw [_read_yuv_branch]
  · rw [_read_y_branch]
  · rw [_read_mp4_branch]
    rfl

/-- Witness for C6's theorem: the concrete instantiation at a yuv
input. -/
theorem c6_extension_dispatch_witness :
    (get_file_extension "v.yuv" = "yuv" →
      YUVReader.init unitRead noFiles
        { input := "v.yuv", size := (2, 2), start := 0, stop := 1,
          fps := 10, out_dir := "o/", clean := false } emptyWorld
        = mkDone (read_yuv unitRead noFiles
            { input := "v.yuv", size := (2, 2), start := 0, stop := 1,
              fps := 10, out_dir := "o/", clean := false } "v.yuv"
            (initState
              { input := "v.yuv", size := (2, 2), start := 0, stop := 1,
                fps := 10, out_dir := "o/", clean := false } emptyWorld)))
    ∧ (get_file_extension "v.yuv" = "y" →
      YUVReader.init unitRead noFiles
        { input := "v.yuv", size := (2, 2), start := 0, stop := 1,
          fps := 10, out_dir := "o/", clean := false } emptyWorld
        = mkDone (read_y unitRead noFiles
            { input := "v.yuv", size := (2, 2), start := 0, stop := 1,
              fps := 10, out_dir := "o/", clean := false } "v.yuv"
            (initState
              { input := "v.yuv", size := (2, 2), start := 0, stop := 1,
                fps := 10, out_dir := "o/", clean := false } emptyWorld)))
    ∧ (get_file_extension "v.yuv" = "mp4" →
      YUVReader.init unitRead noFiles
        { input := "v.yuv", size := (2, 2), start := 0, stop := 1,
          fps := 10, out_dir := "o/", clean := false } emptyWorld
        = mkDone (read_yuv unitRead noFiles
            { input := "v.yuv", size := (2, 2), start := 0, stop := 1,
              fps := 10, out_dir := "o/", clean := false }
            (out_yuv_path "o/" "v.yuv")
            (ffmpegState
              { input := "v.yuv", size := (2, 2), start := 0, stop := 1,
                fps := 10, out_dir := "o/", clean := false } emptyWorld))) :=
  c6_extension_dispatch unitRead noFiles
    { input := "v.yuv", size := (2, 2), start := 0, stop := 1,
      fps := 10, out_dir := "o/", clean := false } emptyWorld (by decide)

/-- C7 (counterexample): the claim says each channel image is read from
the output directory joined with `{idx}_<channel>.png` by a path
separator, but for a yuv input the loader concatenates the output
directory and the file name with NO separator: with `out_dir = "out"` the
frame-0 loads are `out0_y.png`, `out0_u.png`, `out0_v.png`, and
`out0_y.png` is not the separator-joined `out/0_y.png`. -/
theorem c7_counterexample :
    loadsOf ((YUVReader.init unitRead noFiles
      { input := "clip.yuv", size := (4, 4), start := 0, stop := 1,
        fps := 10, out_dir := "out", clean := false } emptyWorld).traceOf)
      = ["out0_y.png", "out0_u.png", "out0_v.png"]
    ∧ "out0_y.png" ≠ "out" ++ "/" ++ "0_y.png" := by decide

/-- C7 (amended): for every frame index `idx`, a `y` input's loader reads
`out_dir ++ "/" ++ "{idx}_y.png"` (separator inserted), while a `yuv` or
`mp4` input's loader reads `out_dir ++ "{idx}_y.png"`, `out_dir ++
"{idx}_u.png"`, `out_dir ++ "{idx}_v.png"` - plain concatenation with no
separator, so those paths lie under the output directory only when
`out_dir` itself ends with a separator. -/
theorem c7_load_paths {Img : Type} (imread : String → Img)
    (convOut : String → List String) (a : Args) (w0 : World)
    (hrange : a.start < a.stop) :
    (get_file_extension a.input = "yuv" →
      loadsOf ((YUVReader.init imread convOut a w0).traceOf)
        = flatOver (fun idx => [yuvChannelPath a.out_dir idx "y",
            yuvChannelPath a.out_dir idx "u", yuvChannelPath a.out_dir idx "v"])
            (pyRange a.start a.stop))
    ∧ (get_file_extension a.input = "mp4" →
      loadsOf ((YUVReader.init imread convOut a w0).traceOf)
        = flatOver (fun idx => [yuvChannelPath a.out_dir idx "y",
            yuvChannelPath a.out_dir idx "u", yuvChannelPath a.out_dir idx "v"])
            (pyRange a.start a.stop))
    ∧ (get_file_extension a.input = "y" →
      loadsOf ((YUVReader.init imread convOut a w0).traceOf)
        = flatOver (fun idx => [yChannelPath a.out_dir idx])
            (pyRange a.start a.stop))
    ∧ (∀ idx ch, yuvChannelPath a.out_dir idx ch
        = a.out_dir ++ (toString idx ++ "_" ++ ch ++ ".png"))
    ∧ (∀ idx, yChannelPath a.out_dir idx
        = a.out_dir ++ "/" ++ (toString idx ++ "_y.png")) := by
  refine ⟨fun h => ?_, fun h => ?_, fun h => ?_, fun idx ch => ?_, fun idx => ?_⟩
  · rw [init_eq_done imread convOut a w0 hrange, h,
      _read_yuv_branch, traceOf_mkDone, read_yuv_trace]
    simp [initState, loadsOf_nil, loadsOf_append, loadsOf_flatOver,
      loadsOf_yuvBlock, loadsOf_cleanSuffix]
  · rw [init_eq_done imread convOut a w0 hrange, h,
      _read_mp4_branch, traceOf_mkDone, read_yuv_trace]
    simp [initState, ffmpegState, loadsOf_ffmpeg, loadsOf_cons_spawnList,
      loadsOf_cons_exitList, loadsOf_append, loadsOf_flatOver,
      loadsOf_yuvBlock, loadsOf_cleanSuffix]
  · rw [init_eq_done imread convOut a w0 hrange, h,
      _read_y_branch, traceOf_mkDone, read_y_trace]
    simp [initState, loadsOf_nil, loadsOf_append, loadsOf_flatOver,
      loadsOf_yBlock, loadsOf_cleanSuffix]
  · simp [yuvChannelPath, String.append_assoc]
  · simp [yChannelPath, String.append_assoc]

/-- Witness for C7's theorem: the concrete instantiation at a yuv
input. -/
theorem c7_load_paths_witness :
    (get_file_extension "v.yuv" = "yuv" →
      loadsOf ((YUVReader.init unitRead noFiles
        { input := "v.yuv", size := (2, 2), start := 0, stop := 1,
          fps := 10, out_dir := "o/", clean := false } emptyWorld).traceOf)
        = flatOver (fun idx => [yuvChannelPath "o/" idx "y",
            yuvChannelPath "o/" idx "u", yuvChannelPath "o/" idx "v"])
            (pyRange 0 1))
    ∧ (get_file_extension "v.yuv" = "mp4" →
      loadsOf ((YUVReader.init unitRead noFiles
        { input := "v.yuv", size := (2, 2), start := 0, stop := 1,
          fps := 10, out_dir := "o/", clean := false } emptyWorld).traceOf)
        = flatOver (fun idx => [yuvChannelPath "o/" idx "y",
            yuvChannelPath "o/" idx "u", yuvChannelPath "o/" idx "v"])
            (pyRange 0 1))
    ∧ (get_file_extension "v.yuv" = "y" →
      loadsOf ((YUVReader.init unitRead noFiles
        { input := "v.yuv", size := (2, 2), start := 0, stop := 1,
          fps := 10, out_dir := "o/", clean := false } emptyWorld).traceOf)
        = flatOver (fun idx => [yChannelPath "o/" idx]) (pyRange 0 1))
    ∧ (∀ idx ch, yuvChannelPath "o/" idx ch
        = "o/" ++ (toString idx ++ "_" ++ ch ++ ".png"))
    ∧ (∀ idx, yChannelPath "o/" idx
        = "o/" ++ "/" ++ (toString idx ++ "_y.png")) :=
  c7_load_paths unitRead noFiles
    { input := "v.yuv", size := (2, 2), start := 0, stop := 1,
      fps := 10, out_dir := "o/", clean := false } emptyWorld (by decide)

/-- C8: frame processing is fully sequential and synchronous.  In every
ingestion branch the constructor's trace is exactly the concatenation,
over the indices of `[start, end)` taken in strictly increasing order, of
that index's contiguous block - spawn the converter, block until it
exits, load the channel images, store the frame - followed only by the
optional cleanup; so no work on a later index begins before the previous
frame is stored.  For mp4 the blocking transcoder call precedes all
frame blocks. -/
theorem c8_sequential {Img : Type} (imread : String → Img)
    (convOut : String → List String) (a : Args) (w0 : World)
    (hrange : a.start < a.stop) :
    (get_file_extension a.input = "yuv" →
      (YUVReader.init imread convOut a w0).traceOf
        = flatOver (yuvBlock a.input a.out_dir a.size.1 a.size.2)
            (pyRange a.start a.stop) ++ cleanSuffix a)
    ∧ (get_file_extension a.input = "y" →
      (YUVReader.init imread convOut a w0).traceOf
        = flatOver (yBlock a.input a.out_dir a.size.1 a.size.2)
            (pyRange a.start a.stop) ++ cleanSuffix a)
    ∧ (get_file_extension a.input = "mp4" →
      (YUVReader.init imread convOut a w0).traceOf
        = [Event.spawnList (ffmpegArgs a.input (out_yuv_path a.out_dir a.input) a.fps),
           Event.exitList (ffmpegArgs a.input (out_yuv_path a.out_dir a.input) a.fps)]
          ++ flatOver (yuvBlock (out_yuv_path a.out_dir a.input) a.out_dir
               a.size.1 a.size.2) (pyRange a.start a.stop)
          ++ cleanSuffix a)
    ∧ List.Pairwise (· < ·) (pyRange a.start a.stop) := by
  refine ⟨fun h => ?_, fun h => ?_, fun h => ?_, pyRange_pairwise _ _⟩ <;>
    rw [init_eq_done imread convOut a w0 hrange, h]
  · rw [_read_yuv_branch, traceOf_mkDone, read_yuv_trace]
    simp [initState]
  · rw [_read_y_branch, traceOf_mkDone, read_y_trace]
    simp [initState]
  · rw [_read_mp4_branch, traceOf_mkDone, read_yuv_trace]
    rfl

/-- Witness for C8's theorem: the concrete instantiation at a yuv
input. -/
theorem c8_sequential_witness :
    (get_file_extension "v.yuv" = "yuv" →
      (YUVReader.init unitRead noFiles
        { input := "v.yuv", size := (2, 2), start := 0, stop := 2,
          fps := 10, out_dir := "o/", clean := true } emptyWorld).traceOf
        = flatOver (yuvBlock "v.yuv" "o/" 2 2) (pyRange 0 2)
          ++ cleanSuffix
              { input := "v.yuv", size := (2, 2), start := 0, stop := 2,
                fps := 10, out_dir := "o/", clean := true })
    ∧ (get_file_extension "v.yuv" = "y" →
      (YUVReader.init unitRead noFiles
        { input := "v.yuv", size := (2, 2), start := 0, stop := 2,
          fps := 10, out_dir := "o/", clean := true } emptyWorld).traceOf
        = flatOver (yBlock "v.yuv" "o/" 2 2) (pyRange 0 2)
          ++ cleanSuffix
              { input := "v.yuv", size := (2, 2), start := 0, stop := 2,
                fps := 10, out_dir := "o/", clean := true })
    ∧ (get_file_extension "v.yuv" = "mp4" →
      (YUVReader.init unitRead noFiles
        { input := "v.yuv", size := (2, 2), start := 0, stop := 2,
          fps := 10, out_dir := "o/", clean := true } emptyWorld).traceOf
        = [Event.spawnList (ffmpegArgs "v.yuv" (out_yuv_path "o/" "v.yuv") 10),
           Event.exitList (ffmpegArgs "v.yuv" (out_yuv_path "o/" "v.yuv") 10)]
          ++ flatOver (yuvBlock (out_yuv_path "o/" "v.yuv") "o/" 2 2)
               (pyRange 0 2)
          ++ cleanSuffix
              { input := "v.yuv", size := (2, 2), start := 0, stop := 2,
                fps := 10, out_dir := "o/", clean := true })
    ∧ List.Pairwise (· < ·) (pyRange 0 2) :=
  c8_sequential unitRead noFiles
    { input := "v.yuv", size := (2, 2), start := 0, stop := 2,
      fps := 10, out_dir := "o/", clean := true } emptyWorld (by decide)

/-- C9: the constructor creates the output directory before validating
the frame range, so a construction with `end ≤ start` still terminates
fatally WITH the output directory existing on disk at the moment of the
exit: the failed construction is not side-effect-free. -/
theorem c9_mkdir_before_check {Img : Type} (imread : String → Img)
    (convOut : String → List String) (a : Args) (w0 : World)
    (h : a.stop ≤ a.start) :
    YUVReader.init imread convOut a w0
      = InitOutcome.fatalExit errorMsg (w0.mkdirIfMissing a.out_dir)
    ∧ a.out_dir ∈ ((YUVReader.init imread convOut a w0).worldOf).dirs := by
  refine ⟨init_eq_exit imread convOut a w0 h, ?_⟩
  rw [init_eq_exit imread convOut a w0 h]
  exact mem_mkdirIfMissing w0 a.out_dir

/-- Witness for C9's theorem: a concrete construction with
`start = 3, end = 1`. -/
theorem c9_mkdir_before_check_witness :
    YUVReader.init unitRead noFiles
      { input := "clip.yuv", size := (2, 2), start := 3, stop := 1,
        fps := 10, out_dir := "o/", clean := false } emptyWorld
      = InitOutcome.fatalExit errorMsg (emptyWorld.mkdirIfMissing "o/")
    ∧ "o/" ∈ ((YUVReader.init unitRead noFiles
      { input := "clip.yuv", size := (2, 2), start := 3, stop := 1,
        fps := 10, out_dir := "o/", clean := false } emptyWorld).worldOf).dirs :=
  c9_mkdir_before_check unitRead noFiles
    { input := "clip.yuv", size := (2, 2), start := 3, stop := 1,
      fps := 10, out_dir := "o/", clean := false } emptyWorld (by decide)

/-- C10 (counterexample): the intermediate transcoded path is the PLAIN
concatenation `out_dir + stem + ".yuv"`.  With `out_dir = "out"` (no
trailing separator) and input `videos/clip.mp4` the intermediate is
`outclip.yuv`, which is NOT inside the output directory, and with cleanup
enabled it is NOT removed: it is exactly what remains on disk after
construction. -/
theorem c10_counterexample :
    underDir "out" (out_yuv_path "out" "videos/clip.mp4") = false
    ∧ ((YUVReader.init unitRead noFiles
      { input := "videos/clip.mp4", size := (4, 4), start := 0, stop := 1,
        fps := 10, out_dir := "out", clean := true } emptyWorld).worldOf).files
      = ["outclip.yuv"] := by decide

/-- C10 (amended): for an mp4 input, when the output directory path ends
with a separator the intermediate transcoded file `out_yuv_path =
out_dir ++ stem ++ ".yuv"` (stem: the part of the basename before its
first dot) does lie inside the output directory; consequently with
cleanup enabled it is removed together with that directory, and with
cleanup disabled it remains on disk after construction. -/
theorem c10_transcode_intermediate {Img : Type} (imread : String → Img)
    (convOut : String → List String) (a : Args) (w0 : World)
    (hrange : a.start < a.stop)
    (hext : get_file_extension a.input = "mp4")
    (hslash : endsSlash a.out_dir = true) :
    underDir a.out_dir (out_yuv_path a.out_dir a.input) = true
    ∧ (a.clean = true →
        out_yuv_path a.out_dir a.input
          ∉ ((YUVReader.init imread convOut a w0).worldOf).files)
    ∧ (a.clean = false →
        out_yuv_path a.out_dir a.input
          ∈ ((YUVReader.init imread convOut a w0).worldOf).files) := by
  have hunder : underDir a.out_dir (out_yuv_path a.out_dir a.input) = true := by
    rw [out_yuv_path, String.append_assoc]
    exact underDir_append_of_endsSlash a.out_dir
      (firstElem (pySplit '.' (lastElem (pySplit '/' a.input))) ++ ".yuv")
      hslash
  refine ⟨hunder, fun hc => ?_, fun hc => ?_⟩
  · rw [init_eq_done imread convOut a w0 hrange, hext, _read_mp4_branch,
      worldOf_mkDone, read_yuv_world_clean imread convOut a _ _ hc]
    intro hmem
    have hf := rmtree_files_not_under _ a.out_dir _ hmem
    rw [hf] at hunder
    exact Bool.false_ne_true hunder
  · rw [init_eq_done imread convOut a w0 hrange, hext, _read_mp4_branch,
      worldOf_mkDone, read_yuv_world_noclean imread convOut a _ _ hc]
    simp [initState]

/-- Witness for C10's theorem: a concrete mp4 run with a
separator-terminated output directory and cleanup disabled. -/
theorem c10_transcode_intermediate_witness :
    underDir "out/" (out_yuv_path "out/" "videos/clip.mp4") = true
    ∧ (false = true →
        out_yuv_path "out/" "videos/clip.mp4"
          ∉ ((YUVReader.init unitRead noFiles
            { input := "videos/clip.mp4", size := (2, 2), start := 0,
              stop := 1, fps := 10, out_dir := "out/", clean := false }
            emptyWorld).worldOf).files)
    ∧ (false = false →
        out_yuv_path "out/" "videos/clip.mp4"
          ∈ ((YUVReader.init unitRead noFiles
            { input := "videos/clip.mp4", size := (2, 2), start := 0,
              stop := 1, fps := 10, out_dir := "out/", clean := false }
            emptyWorld).worldOf).files) :=
  c10_transcode_intermediate unitRead noFiles
    { input := "videos/clip.mp4", size := (2, 2), start := 0, stop := 1,
      fps := 10, out_dir := "out/", clean := false } emptyWorld
    (by decide) (by decide) (by decide)
